import Mathlib

/-!
Verification of the paperless_helper document-ingestion workflow
(`processDocumentWithPaperless` and its collaborators in `paperless.ts`,
the module imported by `server.ts`).

The embedding models every external call (fetch, fs, pdf-text-reader) as an
oracle value in an `Env`: each call either returns a value or throws
(`JSOutcome`).  The workflow is a pure function of the environment that
mirrors the source's control flow statement by statement, and additionally
returns a `Trace` recording which external effects were performed, so that
claims such as "without issuing network calls" are statable.
-/

set_option maxHeartbeats 1000000
set_option linter.unusedVariables false

namespace PaperlessHelper

/-- Outcome of a single JavaScript-level call that may throw: either a
returned value or a thrown exception (the exception payload is irrelevant
to the control flow of the source, so it is not modelled). -/
inductive JSOutcome (α : Type) where
  | ok (a : α)
  | exn
deriving DecidableEq, Repr

/-- One record of the JSON list returned by `GET /api/tasks/?task_id=...`,
mirroring the `TaskResponse` interface of the source. -/
structure TaskResponse where
  id : Int
  task_id : String
  task_file_name : String
  date_created : String
  date_done : Option String
  type : String
  status : String
  result : Option String
  acknowledged : Bool
  related_document : Option String
deriving DecidableEq, Repr

/-- The workflow's sole output, mirroring `PaperlessArchiveResult`. -/
structure PaperlessArchiveResult where
  new_entry : Bool
  uuid : Option Int
  content : String
deriving DecidableEq, Repr

/-- `const IGNORE_EXISTING_FILE = true;` in the source. -/
def IGNORE_EXISTING_FILE : Bool := true

/-- `const REPROCESS_EXISTING_DOCUMENTS = true;` in the source. -/
def REPROCESS_EXISTING_DOCUMENTS : Bool := true

/-- `const duplicate_string = 'It is a duplicate'` in the source. -/
def duplicate_string : String := "It is a duplicate"

/-- `pat.isPrefixOf hay` spelled out on character lists: does `hay` start
with `pat`?  Used to model `String.prototype.includes`. -/
def listStartsWith : List Char → List Char → Bool
  | _, [] => true
  | [], _ :: _ => false
  | a :: as, b :: bs => (a = b) && listStartsWith as bs

/-- `haystack.includes(pat)` on character lists: does `pat` occur as a
contiguous substring of the haystack? -/
def listContainsSub (pat : List Char) : List Char → Bool
  | [] => listStartsWith [] pat
  | c :: rest => listStartsWith (c :: rest) pat || listContainsSub pat rest

/-- `input.lastIndexOf(c)` : index of the last occurrence of `c`, counting
from `i` for the head of the list; `none` models the return value `-1`. -/
def lastIndexOfAux (c : Char) : List Char → Nat → Option Nat
  | [], _ => none
  | x :: xs, i =>
    match lastIndexOfAux c xs (i + 1) with
    | some j => some j
    | none => if x = c then some i else none

/-- `substring.match(/(\d+)/)` : the first maximal run of decimal digits in
the list, or `none` when the list has no digit. -/
def firstDigitRun : List Char → Option (List Char)
  | [] => none
  | c :: rest =>
    if c.isDigit then some (c :: rest.takeWhile (fun d => d.isDigit))
    else firstDigitRun rest

/-- `parseInt(digits, 10)` on a run of decimal digits. -/
def digitsToNat (l : List Char) : Nat :=
  l.foldl (fun acc c => acc * 10 + (c.toNat - Char.toNat '0')) 0

/-- `extractDuplicateId` from the source: find the last `'#'`, slice the
string after it, and parse the first run of decimal digits found there;
`null` when there is no `'#'` or no digit follows it. -/
def extractDuplicateId (input : String) : Option Int :=
  match lastIndexOfAux '#' input.data 0 with
  | none => none
  | some hashIndex =>
    match firstDigitRun (input.data.drop (hashIndex + 1)) with
    | none => none
    | some ds => some (Int.ofNat (digitsToNat ds))

/-- Modelled from the spec's words for the Duplicate Resolver extraction
contract: "locate the last `#` character in the message, take everything
after it, and parse the first run of decimal digits found there as the
identifier; return null if no `#` or no digit run follows it."  Everything
after the last `'#'` is the longest `'#'`-free suffix. -/
def extractExistingId_spec (input : String) : Option Int :=
  if input.data.contains '#' then
    match firstDigitRun ((input.data.reverse.takeWhile (fun a => a != '#')).reverse) with
    | none => none
    | some ds => some (Int.ofNat (digitsToNat ds))
  else none

/-- The response object of one `fetch` of the tasks endpoint: the `ok` flag
and `status` code the source reads, and the outcome of `response.json()`
(`exn` = unparseable body, `ok none` = JSON null, `ok (some l)` = a list of
task records). -/
structure FetchResp where
  ok : Bool
  status : Nat
  json : JSOutcome (Option (List TaskResponse))
deriving DecidableEq, Repr

/-- Behaviour of one iteration's `fetch` inside the poll loop. -/
inductive PollFetch where
  | exn
  | noResponse
  | resp (r : FetchResp)
deriving DecidableEq, Repr

/-- What one iteration of the poll loop does: return a value to the caller,
or fall through to the next iteration after sleeping `sleepMs` milliseconds. -/
inductive PollStepRes where
  | ret (r : Option TaskResponse)
  | cont (sleepMs : Nat)
deriving DecidableEq, Repr

/-- One iteration of the `while (true)` body of `pollPaperlessTaskStatus`. -/
def pollStep : PollFetch → PollStepRes
  | .exn => .ret none
  | .noResponse => .ret none
  | .resp r =>
    if r.ok = false then .ret none
    else if r.status = 200 then
      match r.json with
      | .exn => .ret none
      | .ok none => .ret none
      | .ok (some []) => .ret none
      | .ok (some (task_response :: _)) =>
        if task_response.status = "PENDING" then .cont 5000
        else if task_response.status = "" then .cont 0
        else .ret (some task_response)
    else .ret none

/-- Result of running the poll loop against a finite recorded sequence of
fetch behaviours: a returned value, or `diverge` when the recorded sequence
is exhausted with the loop still running. -/
inductive PollOutcome where
  | done (r : Option TaskResponse)
  | diverge
deriving DecidableEq, Repr

/-- `pollPaperlessTaskStatus`, run against the recorded sequence of
behaviours of the task-status endpoint, one entry per loop iteration. -/
def pollPaperlessTaskStatus : List PollFetch → PollOutcome
  | [] => .diverge
  | f :: rest =>
    match pollStep f with
    | .ret r => .done r
    | .cont _ => pollPaperlessTaskStatus rest

/-- Number of status requests the poll loop issues against the recorded
sequence of behaviours. -/
def pollRequests : List PollFetch → Nat
  | [] => 0
  | f :: rest =>
    match pollStep f with
    | .ret _ => 1
    | .cont _ => 1 + pollRequests rest

/-- A fetch behaviour the source treats as non-terminal: a 200 response
whose authoritative first task record has status `PENDING`. -/
def pendingPoll (f : PollFetch) : Prop :=
  ∃ r task rest, f = PollFetch.resp r ∧ r.ok = true ∧ r.status = 200 ∧
    r.json = JSOutcome.ok (some (task :: rest)) ∧ task.status = "PENDING"

/-- Effects performed by `processAndIngestPDF` / `uploadDocument`. -/
structure UploadTrace where
  mkdirOriginals : Bool
  fetchSource : Bool
  writeOriginal : Bool
  readOriginal : Bool
  fetchUpload : Bool
deriving DecidableEq, Repr

/-- Effects performed by `downloadPaperlessDocument`: directory creation,
and the document id used in the download request and archive write. -/
structure DownloadTrace where
  mkdirArchive : Bool
  fetchDownload : Option Int
  writeArchive : Option Int
deriving DecidableEq, Repr

/-- All external effects performed by one workflow invocation. -/
structure Trace where
  mkdirOriginals : Bool
  fetchSource : Bool
  writeOriginal : Bool
  readOriginal : Bool
  fetchUpload : Bool
  pollFetches : Nat
  mkdirArchive : Bool
  fetchDownload : Option Int
  writeArchive : Option Int
  extracted : Bool
deriving DecidableEq, Repr

/-- The trace of an invocation that performed no external effect at all. -/
def emptyTrace : Trace := ⟨false, false, false, false, false, 0, false, none, none, false⟩

/-- The download-stage trace of an invocation that never reached download. -/
def noDl : DownloadTrace := ⟨false, none, none⟩

/-- Assemble the full trace from the per-stage traces. -/
def mkTrace (u : UploadTrace) (p : Nat) (d : DownloadTrace) (ex : Bool) : Trace :=
  ⟨u.mkdirOriginals, u.fetchSource, u.writeOriginal, u.readOriginal, u.fetchUpload,
    p, d.mkdirArchive, d.fetchDownload, d.writeArchive, ex⟩

/-- Recorded behaviour of every external collaborator call one workflow
invocation can make, in program order. -/
structure Env where
  /-- `existsSync(source_url)` (never throws in Node, but kept fallible). -/
  existsSource : JSOutcome Bool
  /-- `existsSync("originals")` in `processAndIngestPDF`. -/
  origExists : JSOutcome Bool
  /-- `mkdirSync("originals")`, called only when the directory is missing. -/
  origMkdir : JSOutcome Unit
  /-- `fetch(pdfUrl)`: the response's `ok` flag. -/
  pdfFetch : JSOutcome Bool
  /-- `pdfResponse.arrayBuffer()`. -/
  pdfArrayBuffer : JSOutcome Unit
  /-- `writeFile(file_path, pdfBuffer)` for the original copy. -/
  pdfWrite : JSOutcome Unit
  /-- `BunFile(filePath).arrayBuffer()` inside `createFileObject`. -/
  fileObject : JSOutcome Unit
  /-- `fetch(apiURL, {method: POST, ...})`: the response object.  The source
  never reads its `ok` or `status` fields. -/
  uploadFetch : JSOutcome FetchResp
  /-- `response.json()` on the upload response: `exn` = unparseable,
  `ok none` = JSON null, `ok (some s)` = a JSON string. -/
  uploadJson : JSOutcome (Option String)
  /-- Behaviour of the tasks endpoint, one entry per poll-loop iteration. -/
  polls : List PollFetch
  /-- `existsSync("pdf-a")` in `downloadPaperlessDocument`. -/
  dlExists : JSOutcome Bool
  /-- `mkdirSync("pdf-a")`, called only when the directory is missing. -/
  dlMkdir : JSOutcome Unit
  /-- `fetch` of the download endpoint: the response's `ok` flag. -/
  dlFetch : JSOutcome Bool
  /-- `response.arrayBuffer()` on the download response (`ok none` models a
  falsy buffer, which real `fetch` never produces but the source checks). -/
  dlArrayBuffer : JSOutcome (Option Unit)
  /-- `writeFile(file_path, ...)` for the archival copy. -/
  dlWrite : JSOutcome Unit
  /-- `readPdfText({filePath})` on the saved archival copy. -/
  pdfText : JSOutcome String
deriving DecidableEq, Repr

/-- `uploadDocument` from the source: build the file object (whose read
failure is absorbed into `null`), POST it, and return the parsed JSON body
as-is; the response status is never inspected.  The Bool records whether
the POST was issued. -/
def uploadDocument (env : Env) : Option String × Bool :=
  match env.fileObject with
  | .exn => (none, false)
  | .ok _ =>
    match env.uploadFetch with
    | .exn => (none, true)
    | .ok _response =>
      match env.uploadJson with
      | .exn => (none, true)
      | .ok responseData => (responseData, true)

/-- The part of `processAndIngestPDF` after the staging directory exists:
download the source PDF, buffer it, save it, and upload it.  Every failure
here is absorbed into a `null` return; nothing throws. -/
def afterDirs (env : Env) (mkdirFlag : Bool) : Except Unit (Option String) × UploadTrace :=
  match env.pdfFetch with
  | .exn => (.ok none, ⟨mkdirFlag, true, false, false, false⟩)
  | .ok respOk =>
    if respOk = false then (.ok none, ⟨mkdirFlag, true, false, false, false⟩)
    else
      match env.pdfArrayBuffer with
      | .exn => (.ok none, ⟨mkdirFlag, true, false, false, false⟩)
      | .ok _ =>
        match env.pdfWrite with
        | .exn => (.ok none, ⟨mkdirFlag, true, true, false, false⟩)
        | .ok _ =>
          match uploadDocument env with
          | (data, fetched) => (.ok data, ⟨mkdirFlag, true, true, true, fetched⟩)

/-- `processAndIngestPDF` from the source.  The `existsSync`/`mkdirSync`
pair at its head runs outside every try block, so a throw there propagates
(`Except.error`). -/
def processAndIngestPDF (env : Env) : Except Unit (Option String) × UploadTrace :=
  match env.origExists with
  | .exn => (.error (), ⟨false, false, false, false, false⟩)
  | .ok true => afterDirs env false
  | .ok false =>
    match env.origMkdir with
    | .exn => (.error (), ⟨true, false, false, false, false⟩)
    | .ok _ => afterDirs env true

/-- The part of `downloadPaperlessDocument` after the `pdf-a` directory
exists.  Note `response.arrayBuffer()` runs outside the try block, so a
throw there propagates to the caller (`Except.error`). -/
def dlAfterDir (env : Env) (documentId : Int) (mk : Bool) :
    Except Unit (Option String) × DownloadTrace :=
  match env.dlFetch with
  | .exn => (.ok none, ⟨mk, some documentId, none⟩)
  | .ok respOk =>
    if respOk = false then (.ok none, ⟨mk, some documentId, none⟩)
    else
      match env.dlArrayBuffer with
      | .exn => (.error (), ⟨mk, some documentId, none⟩)
      | .ok none => (.ok none, ⟨mk, some documentId, none⟩)
      | .ok (some _) =>
        match env.dlWrite with
        | .exn => (.ok none, ⟨mk, some documentId, some documentId⟩)
        | .ok _ =>
          (.ok (some (("pdf-a/" ++ toString documentId) ++ ".pdf")),
            ⟨mk, some documentId, some documentId⟩)

/-- `downloadPaperlessDocument` from the source (the `original` flag only
selects the URL query string and is otherwise unused). -/
def downloadPaperlessDocument (env : Env) (documentId : Int) (_original : Bool) :
    Except Unit (Option String) × DownloadTrace :=
  match env.dlExists with
  | .exn => (.error (), ⟨false, none, none⟩)
  | .ok true => dlAfterDir env documentId false
  | .ok false =>
    match env.dlMkdir with
    | .exn => (.error (), ⟨true, none, none⟩)
    | .ok _ => dlAfterDir env documentId true

/-- Outcome of one workflow invocation: a returned result, a propagated
exception, or divergence of the poll loop (recorded behaviours exhausted). -/
inductive RunOutcome where
  | result (r : PaperlessArchiveResult)
  | thrown
  | diverge
deriving DecidableEq, Repr

/-- The tail of the workflow: download the archival copy of `document_id`
(catching any throw) and extract its text (catching any throw, and treating
empty text as failure).  The Bool records whether extraction was attempted. -/
def downloadAndExtract (env : Env) (document_id : Int) :
    RunOutcome × DownloadTrace × Bool :=
  match downloadPaperlessDocument env document_id false with
  | (.error _, dt) => (.result ⟨false, some document_id, ""⟩, dt, false)
  | (.ok none, dt) => (.result ⟨false, some document_id, ""⟩, dt, false)
  | (.ok (some _document_filename), dt) =>
    match env.pdfText with
    | .exn => (.result ⟨false, some document_id, ""⟩, dt, true)
    | .ok document_text =>
      if document_text = "" then (.result ⟨false, some document_id, ""⟩, dt, true)
      else (.result ⟨true, some document_id, document_text⟩, dt, true)

/-- The workflow's handling of a terminal task record: the `FAILURE` branch
with duplicate resolution (under `REPROCESS_EXISTING_DOCUMENTS`), falling
through to download/extraction with the resolved document id.  Note the
source's `if (duplicate_id)` is JavaScript truthiness: an extracted id of 0
takes the error branch. -/
def afterPoll (env : Env) (task_info : TaskResponse) :
    RunOutcome × DownloadTrace × Bool :=
  if task_info.status = "FAILURE" then
    if REPROCESS_EXISTING_DOCUMENTS then
      match task_info.result with
      | some res =>
        if listContainsSub duplicate_string.data res.data then
          match extractDuplicateId res with
          | some duplicate_id =>
            if duplicate_id ≠ 0 then downloadAndExtract env duplicate_id
            else (.result ⟨false, some task_info.id, ""⟩, noDl, false)
          | none => (.result ⟨false, some task_info.id, ""⟩, noDl, false)
        else (.result ⟨false, some task_info.id, ""⟩, noDl, false)
      | none => (.result ⟨false, some task_info.id, ""⟩, noDl, false)
    else (.result ⟨false, some task_info.id, ""⟩, noDl, false)
  else downloadAndExtract env task_info.id

/-- `processDocumentWithPaperless` from the source, the workflow `run`. -/
def processDocumentWithPaperless (env : Env) (source_url hoarder_id token : String) :
    RunOutcome × Trace :=
  if source_url = "" then (.result ⟨false, none, ""⟩, emptyTrace)
  else
    match env.existsSource with
    | .exn => (.thrown, emptyTrace)
    | .ok b =>
      if b && !IGNORE_EXISTING_FILE then (.result ⟨false, none, ""⟩, emptyTrace)
      else
        match processAndIngestPDF env with
        | (.error _, ut) => (.thrown, mkTrace ut 0 noDl false)
        | (.ok none, ut) => (.result ⟨false, none, ""⟩, mkTrace ut 0 noDl false)
        | (.ok (some paperless_task_uuid), ut) =>
          if paperless_task_uuid = "" then
            (.result ⟨false, none, ""⟩, mkTrace ut 0 noDl false)
          else
            match pollPaperlessTaskStatus env.polls with
            | .diverge => (.diverge, mkTrace ut (pollRequests env.polls) noDl false)
            | .done none =>
              (.result ⟨false, none, ""⟩, mkTrace ut (pollRequests env.polls) noDl false)
            | .done (some task_info) =>
              match afterPoll env task_info with
              | (out, dt, ex) => (out, mkTrace ut (pollRequests env.polls) dt ex)

/-- The spec's result invariant: a new entry carries non-empty extracted
text and a non-null document id; a non-new entry carries empty text. -/
def resultInvariant (r : PaperlessArchiveResult) : Prop :=
  (r.new_entry = true → r.content ≠ "" ∧ r.uuid ≠ none)
  ∧ (r.new_entry = false → r.content = "")

/-- The collaborator behaviours that let `processAndIngestPDF` get as far
as calling `uploadDocument`: staging directory handled without a throw,
source PDF fetched ok, buffered and written to disk. -/
def preUploadOk (env : Env) : Prop :=
  (∃ b, env.origExists = JSOutcome.ok b)
  ∧ (env.origExists = JSOutcome.ok false → env.origMkdir = JSOutcome.ok ())
  ∧ env.pdfFetch = JSOutcome.ok true
  ∧ env.pdfArrayBuffer = JSOutcome.ok ()
  ∧ env.pdfWrite = JSOutcome.ok ()

/-- The collaborator behaviours under which `downloadPaperlessDocument`
succeeds end to end. -/
def downloadOk (env : Env) : Prop :=
  (∃ b, env.dlExists = JSOutcome.ok b)
  ∧ (env.dlExists = JSOutcome.ok false → env.dlMkdir = JSOutcome.ok ())
  ∧ env.dlFetch = JSOutcome.ok true
  ∧ env.dlArrayBuffer = JSOutcome.ok (some ())
  ∧ env.dlWrite = JSOutcome.ok ()

/-! ### Sample data used by witnesses and counterexamples -/

/-- A task record with the given id, status and result message; the
remaining fields are fixed sample values. -/
def mkTask (i : Int) (st : String) (res : Option String) : TaskResponse :=
  ⟨i, "tsk-uuid-1", "doc.pdf", "2024-01-01", none, "file", st, res, false, none⟩

def sampleText : String := "Hello world"

def sampleUuid : String := "tsk-uuid-1"

def urlA : String := "http://example.com/a.pdf"

def hoarderA : String := "h1"

def tokenA : String := "tok"

def msg482 : String := "Not consumed: It is a duplicate of INV-2024.pdf (#482)"

def msgNoHash : String := "It is a duplicate of file.pdf"

def msg917 : String := "Not consumed: It is a duplicate of INV-2024.pdf (#917)"

def msgZero : String := "Not consumed: It is a duplicate of INV-2024.pdf (#0)"

def msgOther : String := "Some unrelated consumption error"

def serverErrorBody : String := "Internal Server Error"

def pendTask : TaskResponse := mkTask 1 "PENDING" none

def pendingFetch : PollFetch := PollFetch.resp ⟨true, 200, JSOutcome.ok (some [pendTask])⟩

def successTask : TaskResponse := mkTask 5 "SUCCESS" none

def successFetch : PollFetch := PollFetch.resp ⟨true, 200, JSOutcome.ok (some [successTask])⟩

def failTask917 : TaskResponse := mkTask 3 "FAILURE" (some msg917)

def fetch917 : PollFetch := PollFetch.resp ⟨true, 200, JSOutcome.ok (some [failTask917])⟩

def failTaskZero : TaskResponse := mkTask 7 "FAILURE" (some msgZero)

def fetchZero : PollFetch := PollFetch.resp ⟨true, 200, JSOutcome.ok (some [failTaskZero])⟩

def failTaskOther : TaskResponse := mkTask 9 "FAILURE" (some msgOther)

def fetchOther : PollFetch := PollFetch.resp ⟨true, 200, JSOutcome.ok (some [failTaskOther])⟩

/-- An environment in which every collaborator call succeeds and the task
reaches `SUCCESS` on the first poll. -/
def okEnvBase : Env :=
  { existsSource := JSOutcome.ok false
    origExists := JSOutcome.ok true
    origMkdir := JSOutcome.ok ()
    pdfFetch := JSOutcome.ok true
    pdfArrayBuffer := JSOutcome.ok ()
    pdfWrite := JSOutcome.ok ()
    fileObject := JSOutcome.ok ()
    uploadFetch := JSOutcome.ok ⟨true, 200, JSOutcome.ok none⟩
    uploadJson := JSOutcome.ok (some sampleUuid)
    polls := [successFetch]
    dlExists := JSOutcome.ok true
    dlMkdir := JSOutcome.ok ()
    dlFetch := JSOutcome.ok true
    dlArrayBuffer := JSOutcome.ok (some ())
    dlWrite := JSOutcome.ok ()
    pdfText := JSOutcome.ok sampleText }

/-- Environment in which `mkdirSync("originals")` throws (e.g. EACCES). -/
def mkdirThrowsEnv : Env :=
  { okEnvBase with origExists := JSOutcome.ok false, origMkdir := JSOutcome.exn }

/-- Environment in which the upload endpoint answers 502 (non-2xx) with the
JSON string body `serverErrorBody`, and the first poll fetch then throws. -/
def upload502Env : Env :=
  { okEnvBase with
      uploadFetch := JSOutcome.ok ⟨false, 502, JSOutcome.ok none⟩
      uploadJson := JSOutcome.ok (some serverErrorBody)
      polls := [PollFetch.exn] }

/-- Environment whose task terminates in `FAILURE` with a duplicate message
naming document 917. -/
def dupEnv : Env := { okEnvBase with polls := [fetch917] }

/-- Environment whose task terminates in `FAILURE` with a duplicate message
whose extracted identifier is 0. -/
def zeroEnv : Env := { okEnvBase with polls := [fetchZero] }

/-- Environment whose task terminates in `FAILURE` with a non-duplicate
message. -/
def otherEnv : Env := { okEnvBase with polls := [fetchOther] }

/-- Environment in which the upload POST itself throws (network error). -/
def uploadThrowsEnv : Env := { okEnvBase with uploadFetch := JSOutcome.exn }

/-! ### Helper lemmas: last-index slicing and digit runs -/

theorem lastIndexOfAux_shift (c : Char) (l : List Char) : ∀ i : Nat,
    lastIndexOfAux c l i = (lastIndexOfAux c l 0).map (fun j => j + i) := by
  induction l with
  | nil => intro i; simp [lastIndexOfAux]
  | cons x xs ih =>
    intro i
    simp only [lastIndexOfAux]
    rw [ih (i + 1), ih 1]
    cases h : lastIndexOfAux c xs 0 with
    | none =>
      by_cases hx : x = c <;> simp [hx, Option.map]
    | some j =>
      simp only [Option.map]
      congr 1
      omega

theorem lastIndexOfAux_eq_none_iff (c : Char) : ∀ l : List Char,
    lastIndexOfAux c l 0 = none ↔ c ∉ l := by
  intro l
  induction l with
  | nil => simp [lastIndexOfAux]
  | cons x xs ih =>
    simp only [lastIndexOfAux]
    rw [lastIndexOfAux_shift c xs 1]
    cases h : lastIndexOfAux c xs 0 with
    | some j =>
      have hmem : c ∈ xs := by
        by_contra hc
        rw [← ih] at hc
        rw [h] at hc
        cases hc
      simp [Option.map, List.mem_cons, hmem]
    | none =>
      have hnm : c ∉ xs := ih.mp h
      by_cases hx : x = c
      · simp [Option.map, hx, List.mem_cons, hnm]
      · simp only [Option.map, if_neg hx]
        simp only [List.mem_cons, not_or]
        constructor
        · intro _
          exact ⟨fun hcx => hx hcx.symm, hnm⟩
        · intro _
          trivial

theorem takeWhile_append_all {α : Type} (p : α → Bool) :
    ∀ (l₁ l₂ : List α), (∀ a ∈ l₁, p a = true) →
      List.takeWhile p (l₁ ++ l₂) = l₁ ++ List.takeWhile p l₂ := by
  intro l₁
  induction l₁ with
  | nil => intro l₂ h; simp
  | cons a as ih =>
    intro l₂ h
    have ha : p a = true := h a (List.mem_cons_self a as)
    simp only [List.cons_append, List.takeWhile_cons, ha, if_true]
    rw [ih l₂ (fun b hb => h b (List.mem_cons_of_mem a hb))]

theorem takeWhile_append_stop {α : Type} (p : α → Bool) :
    ∀ (l₁ l₂ : List α) (a : α), a ∈ l₁ → p a = false →
      List.takeWhile p (l₁ ++ l₂) = List.takeWhile p l₁ := by
  intro l₁
  induction l₁ with
  | nil => intro l₂ a ha; cases ha
  | cons b bs ih =>
    intro l₂ a ha hpa
    by_cases hb : p b = true
    · simp only [List.cons_append, List.takeWhile_cons, hb, if_true]
      have hmem : a ∈ bs := by
        rcases List.mem_cons.mp ha with h1 | h1
        · subst h1; rw [hpa] at hb; cases hb
        · exact h1
      rw [ih l₂ a hmem hpa]
    · have hb' : p b = false := by
        cases hpb : p b
        · rfl
        · exact absurd hpb hb
      simp [List.takeWhile_cons, hb']

theorem lastIndexOfAux_drop (c : Char) : ∀ (l : List Char) (j : Nat),
    lastIndexOfAux c l 0 = some j →
    l.drop (j + 1) = (l.reverse.takeWhile (fun a => a != c)).reverse := by
  intro l
  induction l with
  | nil => intro j h; cases h
  | cons x xs ih =>
    intro j h
    rw [show lastIndexOfAux c (x :: xs) 0 =
        (match lastIndexOfAux c xs 1 with
          | some j' => some j'
          | none => if x = c then some 0 else none) from rfl] at h
    rw [lastIndexOfAux_shift c xs 1] at h
    cases h0 : lastIndexOfAux c xs 0 with
    | some j0 =>
      rw [h0] at h
      simp only [Option.map] at h
      have hj : j = j0 + 1 := by
        cases h; rfl
      subst hj
      have hmem : c ∈ xs := by
        by_contra hc
        rw [← lastIndexOfAux_eq_none_iff] at hc
        rw [h0] at hc
        cases hc
      have hmemrev : c ∈ xs.reverse := List.mem_reverse.mpr hmem
      have hstep : List.drop (j0 + 1 + 1) (x :: xs) = List.drop (j0 + 1) xs := rfl
      rw [hstep, ih j0 h0, List.reverse_cons]
      rw [takeWhile_append_stop _ xs.reverse [x] c hmemrev (by simp)]
    | none =>
      rw [h0] at h
      simp only [Option.map] at h
      by_cases hx : x = c
      · rw [if_pos hx] at h
        have hj : j = 0 := by cases h; rfl
        subst hj
        have hnm : c ∉ xs := (lastIndexOfAux_eq_none_iff c xs).mp h0
        rw [List.reverse_cons]
        rw [takeWhile_append_all _ xs.reverse [x]
          (fun a ha => by
            have hax : a ∈ xs := List.mem_reverse.mp ha
            have hne : a ≠ c := fun hac => hnm (hac ▸ hax)
            simp [hne])]
        simp [hx]
      · rw [if_neg hx] at h
        cases h

theorem extractDuplicateId_eq_spec (s : String) :
    extractDuplicateId s = extractExistingId_spec s := by
  unfold extractDuplicateId extractExistingId_spec
  cases h : lastIndexOfAux '#' s.data 0 with
  | none =>
    have hnm : '#' ∉ s.data := (lastIndexOfAux_eq_none_iff _ _).mp h
    have hc : s.data.contains '#' = false := by
      simp only [List.contains, List.elem_eq_mem, decide_eq_false_iff_not]
      exact hnm
    rw [hc]
    simp
  | some j =>
    have hmem : '#' ∈ s.data := by
      by_contra hc
      rw [← lastIndexOfAux_eq_none_iff] at hc
      rw [h] at hc
      cases hc
    have hc : s.data.contains '#' = true := by
      simp only [List.contains, List.elem_eq_mem, decide_eq_true_eq]
      exact hmem
    rw [hc]
    dsimp only
    rw [lastIndexOfAux_drop '#' s.data j h]
    rw [if_pos rfl]

/-- Claim C6 (confirmed): `extractDuplicateId` locates the last `'#'`,
takes the substring after it, and returns the integer parsed from the
first run of decimal digits found there, returning null when there is no
`'#'` or no digit run follows the last `'#'` (stated as extensional
equality with the spec-modelled extractor); on the duplicate example
message it returns 482, and on the hash-free example it returns null. -/
theorem extractDuplicateId_matches_spec :
    (∀ s : String, extractDuplicateId s = extractExistingId_spec s)
    ∧ extractDuplicateId msg482 = some 482
    ∧ extractDuplicateId msgNoHash = none := by
  refine ⟨extractDuplicateId_eq_spec, ?_, ?_⟩ <;> rfl

/-! ### Poller lemmas -/

theorem pollStep_pending (f : PollFetch) (h : pendingPoll f) :
    pollStep f = PollStepRes.cont 5000 := by
  obtain ⟨r, task, rest, hf, hok, hst, hjson, hpend⟩ := h
  subst hf
  simp [pollStep, hok, hst, hjson, hpend]

theorem poll_pending_diverge : ∀ polls : List PollFetch, (∀ f ∈ polls, pendingPoll f) →
    pollPaperlessTaskStatus polls = PollOutcome.diverge
    ∧ pollRequests polls = polls.length := by
  intro polls
  induction polls with
  | nil => intro _; exact ⟨rfl, rfl⟩
  | cons f rest ih =>
    intro h
    have hf := pollStep_pending f (h f (List.mem_cons_self f rest))
    have hrest := ih (fun g hg => h g (List.mem_cons_of_mem f hg))
    refine ⟨?_, ?_⟩
    · simp [pollPaperlessTaskStatus, hf, hrest.1]
    · simp only [pollRequests, hf, hrest.2, List.length_cons]
      omega

theorem pollStep_ret_some (f : PollFetch) (t : TaskResponse)
    (h : pollStep f = PollStepRes.ret (some t)) :
    t.status ≠ "" ∧ t.status ≠ "PENDING" ∧
      ∃ r rest, f = PollFetch.resp r ∧ r.json = JSOutcome.ok (some (t :: rest)) := by
  cases f with
  | exn => simp [pollStep] at h
  | noResponse => simp [pollStep] at h
  | resp r =>
    by_cases hok : r.ok = false
    · simp [pollStep, hok] at h
    · by_cases hst : r.status = 200
      · cases hj : r.json with
        | exn => simp [pollStep, hok, hst, hj] at h
        | ok o =>
          cases o with
          | none => simp [pollStep, hok, hst, hj] at h
          | some l =>
            cases l with
            | nil => simp [pollStep, hok, hst, hj] at h
            | cons t0 rest =>
              by_cases hp : t0.status = "PENDING"
              · simp [pollStep, hok, hst, hj, hp] at h
              · by_cases he : t0.status = ""
                · simp [pollStep, hok, hst, hj, hp, he] at h
                · simp [pollStep, hok, hst, hj, hp, he] at h
                  subst h
                  exact ⟨he, hp, r, rest, rfl, hj⟩
      · simp [pollStep, hok, hst] at h

theorem poll_done_some : ∀ (polls : List PollFetch) (t : TaskResponse),
    pollPaperlessTaskStatus polls = PollOutcome.done (some t) →
    t.status ≠ "" ∧ t.status ≠ "PENDING" ∧
      ∃ f ∈ polls, ∃ r rest, f = PollFetch.resp r
        ∧ r.json = JSOutcome.ok (some (t :: rest)) := by
  intro polls
  induction polls with
  | nil => intro t h; cases h
  | cons f rest ih =>
    intro t h
    simp only [pollPaperlessTaskStatus] at h
    cases hs : pollStep f with
    | ret r =>
      rw [hs] at h
      have hr : r = some t := by
        cases h
        rfl
      subst hr
      obtain ⟨h1, h2, rr, rrest, hf, hj⟩ := pollStep_ret_some f t hs
      exact ⟨h1, h2, f, List.mem_cons_self f rest, rr, rrest, hf, hj⟩
    | cont s =>
      rw [hs] at h
      obtain ⟨h1, h2, g, hg, rr, rrest, hf, hj⟩ := ih t h
      exact ⟨h1, h2, g, List.mem_cons_of_mem f hg, rr, rrest, hf, hj⟩

/-- Claim C5 (confirmed): whenever a 200 response's authoritative first
record has status `PENDING`, the poll loop sleeps the fixed 5000 ms and
re-issues the query; a recorded sequence of such responses is consumed in
full without the loop ever returning (no attempt cap or timeout, one
request per entry); and the poller returns a record only when the first
record's status is non-empty and not `PENDING`, the returned record being
that first record. -/
theorem poller_pending_loops :
    (∀ f, pendingPoll f → pollStep f = PollStepRes.cont 5000)
    ∧ (∀ polls : List PollFetch, (∀ f ∈ polls, pendingPoll f) →
        pollPaperlessTaskStatus polls = PollOutcome.diverge
        ∧ pollRequests polls = polls.length)
    ∧ (∀ (polls : List PollFetch) (t : TaskResponse),
        pollPaperlessTaskStatus polls = PollOutcome.done (some t) →
        t.status ≠ "" ∧ t.status ≠ "PENDING" ∧
          ∃ f ∈ polls, ∃ r rest, f = PollFetch.resp r
            ∧ r.json = JSOutcome.ok (some (t :: rest))) :=
  ⟨pollStep_pending, poll_pending_diverge, poll_done_some⟩

theorem poller_pending_loops_witness :
    pollStep pendingFetch = PollStepRes.cont 5000
    ∧ pollPaperlessTaskStatus [pendingFetch, pendingFetch] = PollOutcome.diverge
    ∧ pollRequests [pendingFetch, pendingFetch] = 2
    ∧ successTask.status ≠ "" ∧ successTask.status ≠ "PENDING" := by
  have h := poller_pending_loops
  have hpend : pendingPoll pendingFetch :=
    ⟨⟨true, 200, JSOutcome.ok (some [pendTask])⟩, pendTask, [], rfl, rfl, rfl, rfl, rfl⟩
  have hall : ∀ f ∈ [pendingFetch, pendingFetch], pendingPoll f := by
    intro f hf
    rcases List.mem_cons.mp hf with h1 | h1
    · subst h1; exact hpend
    · rcases List.mem_cons.mp h1 with h2 | h2
      · subst h2; exact hpend
      · cases h2
  have h2 := h.2.1 [pendingFetch, pendingFetch] hall
  have h3 := h.2.2 [successFetch] successTask rfl
  exact ⟨h.1 pendingFetch hpend, h2.1, h2.2, h3.1, h3.2.1⟩

/-- Claim C8 (confirmed): a transport error (fetch throws), a not-ok
(non-2xx) response, a 200 response with an unparseable JSON body, or a 200
response whose parsed body is an empty list each make the poller return
null immediately, with exactly one request issued for that invocation. -/
theorem poll_error_returns_null_immediately (f : PollFetch) (rest : List PollFetch)
    (h : f = PollFetch.exn
      ∨ (∃ r, f = PollFetch.resp r ∧ r.ok = false)
      ∨ (∃ r, f = PollFetch.resp r ∧ r.ok = true ∧ r.status = 200
          ∧ r.json = JSOutcome.exn)
      ∨ (∃ r, f = PollFetch.resp r ∧ r.ok = true ∧ r.status = 200
          ∧ r.json = JSOutcome.ok (some []))) :
    pollPaperlessTaskStatus (f :: rest) = PollOutcome.done none
    ∧ pollRequests (f :: rest) = 1 := by
  have hstep : pollStep f = PollStepRes.ret none := by
    rcases h with h | ⟨r, hf, hok⟩ | ⟨r, hf, hok, hst, hj⟩ | ⟨r, hf, hok, hst, hj⟩
    · subst h; rfl
    · subst hf; simp [pollStep, hok]
    · subst hf; simp [pollStep, hok, hst, hj]
    · subst hf; simp [pollStep, hok, hst, hj]
  exact ⟨by simp [pollPaperlessTaskStatus, hstep], by simp [pollRequests, hstep]⟩

theorem poll_error_returns_null_immediately_witness :
    pollPaperlessTaskStatus [PollFetch.exn, pendingFetch] = PollOutcome.done none
    ∧ pollRequests [PollFetch.exn, pendingFetch] = 1 :=
  poll_error_returns_null_immediately PollFetch.exn [pendingFetch] (Or.inl rfl)

/-! ### Workflow lemmas -/

theorem resultInvariant_fail (u : Option Int) : resultInvariant ⟨false, u, ""⟩ :=
  ⟨fun h => Bool.noConfusion h, fun _ => rfl⟩

theorem afterDirs_ok (env : Env) (mk : Bool) :
    ∃ v ut, afterDirs env mk = (Except.ok v, ut) := by
  unfold afterDirs
  cases hpf : env.pdfFetch with
  | exn => exact ⟨none, ⟨mk, true, false, false, false⟩, rfl⟩
  | ok respOk =>
    cases respOk with
    | false => exact ⟨none, ⟨mk, true, false, false, false⟩, rfl⟩
    | true =>
      cases hpb : env.pdfArrayBuffer with
      | exn => exact ⟨none, ⟨mk, true, false, false, false⟩, rfl⟩
      | ok _ =>
        cases hpw : env.pdfWrite with
        | exn => exact ⟨none, ⟨mk, true, true, false, false⟩, rfl⟩
        | ok _ =>
          rcases hud : uploadDocument env with ⟨data, fetched⟩
          exact ⟨data, ⟨mk, true, true, true, fetched⟩, rfl⟩

theorem processAndIngestPDF_ok (env : Env)
    (h2 : env.origExists ≠ JSOutcome.exn) (h3 : env.origMkdir ≠ JSOutcome.exn) :
    ∃ v ut, processAndIngestPDF env = (Except.ok v, ut) := by
  unfold processAndIngestPDF
  cases hoe : env.origExists with
  | exn => exact absurd hoe h2
  | ok b =>
    cases b with
    | true => exact afterDirs_ok env false
    | false =>
      cases hom : env.origMkdir with
      | exn => exact absurd hom h3
      | ok u => exact afterDirs_ok env true

theorem afterDirs_reaches_upload (env : Env) (mk : Bool)
    (hpf : env.pdfFetch = JSOutcome.ok true)
    (hpb : env.pdfArrayBuffer = JSOutcome.ok ())
    (hpw : env.pdfWrite = JSOutcome.ok ()) :
    afterDirs env mk =
      (Except.ok (uploadDocument env).1, ⟨mk, true, true, true, (uploadDocument env).2⟩) := by
  unfold afterDirs
  rw [hpf, hpb, hpw]
  rfl

theorem processAndIngestPDF_reaches_upload (env : Env) (h : preUploadOk env) :
    ∃ mk, processAndIngestPDF env =
      (Except.ok (uploadDocument env).1, ⟨mk, true, true, true, (uploadDocument env).2⟩) := by
  obtain ⟨⟨b, hoe⟩, hom, hpf, hpb, hpw⟩ := h
  unfold processAndIngestPDF
  rw [hoe]
  cases b with
  | true => exact ⟨false, afterDirs_reaches_upload env false hpf hpb hpw⟩
  | false =>
    rw [hom hoe]
    exact ⟨true, afterDirs_reaches_upload env true hpf hpb hpw⟩

theorem uploadDocument_fails (env : Env)
    (hfail : env.uploadFetch = JSOutcome.exn ∨ env.uploadJson = JSOutcome.exn
      ∨ env.uploadJson = JSOutcome.ok none
      ∨ env.uploadJson = JSOutcome.ok (some "")) :
    (uploadDocument env).1 = none ∨ (uploadDocument env).1 = some "" := by
  unfold uploadDocument
  cases hfo : env.fileObject with
  | exn => exact Or.inl rfl
  | ok _ =>
    rcases hfail with h | h | h | h
    · rw [h]
      exact Or.inl rfl
    all_goals cases huf : env.uploadFetch with
      | exn => exact Or.inl rfl
      | ok _ => rw [h]; first
          | exact Or.inl rfl
          | exact Or.inr rfl

theorem downloadPaperlessDocument_success (env : Env) (d : Int) (h : downloadOk env) :
    ∃ p mk, downloadPaperlessDocument env d false =
      (Except.ok (some p), (⟨mk, some d, some d⟩ : DownloadTrace)) := by
  obtain ⟨⟨b, hde⟩, hdm, hdf, hdb, hdw⟩ := h
  have key : ∀ mk, dlAfterDir env d mk =
      (Except.ok (some (("pdf-a/" ++ toString d) ++ ".pdf")),
        (⟨mk, some d, some d⟩ : DownloadTrace)) := by
    intro mk
    unfold dlAfterDir
    rw [hdf, hdb, hdw]
    simp
  unfold downloadPaperlessDocument
  rw [hde]
  cases b with
  | true => exact ⟨_, false, key false⟩
  | false =>
    rw [hdm hde]
    exact ⟨_, true, key true⟩

theorem downloadAndExtract_total (env : Env) (d : Int) :
    ∃ r dt ex, downloadAndExtract env d = (RunOutcome.result r, dt, ex)
      ∧ resultInvariant r := by
  unfold downloadAndExtract
  rcases hdl : downloadPaperlessDocument env d false with ⟨e, dt⟩
  cases e with
  | error u => exact ⟨⟨false, some d, ""⟩, dt, false, rfl, resultInvariant_fail _⟩
  | ok o =>
    cases o with
    | none => exact ⟨⟨false, some d, ""⟩, dt, false, rfl, resultInvariant_fail _⟩
    | some fname =>
      cases hpt : env.pdfText with
      | exn => exact ⟨⟨false, some d, ""⟩, dt, true, rfl, resultInvariant_fail _⟩
      | ok text =>
        by_cases hte : text = ""
        · refine ⟨⟨false, some d, ""⟩, dt, true, ?_, resultInvariant_fail _⟩
          simp [hte]
        · refine ⟨⟨true, some d, text⟩, dt, true, ?_,
            fun _ => ⟨hte, fun hc => Option.noConfusion hc⟩, fun hc => Bool.noConfusion hc⟩
          simp [hte]

theorem afterPoll_total (env : Env) (task : TaskResponse) :
    ∃ r dt ex, afterPoll env task = (RunOutcome.result r, dt, ex)
      ∧ resultInvariant r := by
  unfold afterPoll
  by_cases hst : task.status = "FAILURE"
  · rw [if_pos hst]
    simp only [REPROCESS_EXISTING_DOCUMENTS, if_true]
    cases hres : task.result with
    | none => exact ⟨⟨false, some task.id, ""⟩, noDl, false, rfl, resultInvariant_fail _⟩
    | some res =>
      dsimp only
      by_cases hdup : listContainsSub duplicate_string.data res.data = true
      · rw [if_pos hdup]
        cases hid : extractDuplicateId res with
        | none => exact ⟨⟨false, some task.id, ""⟩, noDl, false, rfl, resultInvariant_fail _⟩
        | some d =>
          dsimp only
          by_cases hd : d ≠ 0
          · rw [if_pos hd]
            exact downloadAndExtract_total env d
          · rw [if_neg hd]
            exact ⟨⟨false, some task.id, ""⟩, noDl, false, rfl, resultInvariant_fail _⟩
      · rw [if_neg hdup]
        exact ⟨⟨false, some task.id, ""⟩, noDl, false, rfl, resultInvariant_fail _⟩
  · rw [if_neg hst]
    exact downloadAndExtract_total env task.id

theorem afterPoll_nondup (env : Env) (task : TaskResponse)
    (hst : task.status = "FAILURE")
    (hnd : ∀ m, task.result = some m →
      listContainsSub duplicate_string.data m.data = false) :
    afterPoll env task = (RunOutcome.result ⟨false, some task.id, ""⟩, noDl, false) := by
  unfold afterPoll
  rw [if_pos hst]
  simp only [REPROCESS_EXISTING_DOCUMENTS, if_true]
  cases hres : task.result with
  | none => rfl
  | some res =>
    dsimp only
    rw [hnd res hres]
    rfl

theorem afterPoll_zero (env : Env) (task : TaskResponse) (res : String)
    (hst : task.status = "FAILURE") (hres : task.result = some res)
    (hdup : listContainsSub duplicate_string.data res.data = true)
    (hid : extractDuplicateId res = some 0) :
    afterPoll env task = (RunOutcome.result ⟨false, some task.id, ""⟩, noDl, false) := by
  unfold afterPoll
  rw [if_pos hst]
  simp only [REPROCESS_EXISTING_DOCUMENTS, if_true]
  rw [hres]
  dsimp only
  rw [hdup]
  simp only [if_true]
  rw [hid]
  dsimp only
  rw [if_neg (by simp : ¬((0 : Int) ≠ 0))]

theorem afterPoll_duplicate_download (env : Env) (task : TaskResponse) (res : String)
    (n : Int) (txt : String)
    (hst : task.status = "FAILURE") (hres : task.result = some res)
    (hdup : listContainsSub duplicate_string.data res.data = true)
    (hid : extractDuplicateId res = some n) (hn : n ≠ 0)
    (hdl : downloadOk env)
    (htxt : env.pdfText = JSOutcome.ok txt) (hne : txt ≠ "") :
    ∃ mk, afterPoll env task =
      (RunOutcome.result ⟨true, some n, txt⟩, (⟨mk, some n, some n⟩ : DownloadTrace), true) := by
  obtain ⟨p, mk, hdlp⟩ := downloadPaperlessDocument_success env n hdl
  refine ⟨mk, ?_⟩
  unfold afterPoll
  rw [if_pos hst]
  simp only [REPROCESS_EXISTING_DOCUMENTS, if_true]
  rw [hres]
  dsimp only
  rw [hdup]
  simp only [if_true]
  rw [hid]
  dsimp only
  rw [if_pos hn]
  unfold downloadAndExtract
  rw [hdlp]
  dsimp only
  rw [htxt]
  dsimp only
  rw [if_neg hne]

theorem run_after_poll (env : Env) (source_url hoarder_id token : String)
    (task : TaskResponse) (s : String) (ut : UploadTrace)
    (hurl : source_url ≠ "")
    (hes : ∃ b, env.existsSource = JSOutcome.ok b)
    (hup : processAndIngestPDF env = (Except.ok (some s), ut)) (hsne : s ≠ "")
    (hpoll : pollPaperlessTaskStatus env.polls = PollOutcome.done (some task)) :
    processDocumentWithPaperless env source_url hoarder_id token
      = ((afterPoll env task).1,
        mkTrace ut (pollRequests env.polls) (afterPoll env task).2.1
          (afterPoll env task).2.2) := by
  obtain ⟨b, hb⟩ := hes
  unfold processDocumentWithPaperless
  rw [if_neg hurl, hb]
  dsimp only
  rw [show (b && !IGNORE_EXISTING_FILE) = false by simp [IGNORE_EXISTING_FILE]]
  simp only [Bool.false_eq_true, if_false]
  rw [hup]
  dsimp only
  rw [if_neg hsne, hpoll]

theorem run_total_aux (env : Env) (source_url hoarder_id token : String)
    (h1 : env.existsSource ≠ JSOutcome.exn)
    (h2 : env.origExists ≠ JSOutcome.exn)
    (h3 : env.origMkdir ≠ JSOutcome.exn)
    (h4 : pollPaperlessTaskStatus env.polls ≠ PollOutcome.diverge) :
    ∃ r tr, processDocumentWithPaperless env source_url hoarder_id token
        = (RunOutcome.result r, tr) ∧ resultInvariant r := by
  by_cases hu : source_url = ""
  · refine ⟨⟨false, none, ""⟩, emptyTrace, ?_, resultInvariant_fail _⟩
    unfold processDocumentWithPaperless
    rw [if_pos hu]
  · unfold processDocumentWithPaperless
    rw [if_neg hu]
    cases hes : env.existsSource with
    | exn => exact absurd hes h1
    | ok b =>
      dsimp only
      rw [show (b && !IGNORE_EXISTING_FILE) = false by simp [IGNORE_EXISTING_FILE]]
      simp only [Bool.false_eq_true, if_false]
      obtain ⟨v, ut, hup⟩ := processAndIngestPDF_ok env h2 h3
      rw [hup]
      cases v with
      | none => exact ⟨⟨false, none, ""⟩, _, rfl, resultInvariant_fail _⟩
      | some s =>
        dsimp only
        by_cases hs : s = ""
        · rw [if_pos hs]
          exact ⟨⟨false, none, ""⟩, _, rfl, resultInvariant_fail _⟩
        · rw [if_neg hs]
          cases hpoll : pollPaperlessTaskStatus env.polls with
          | diverge => exact absurd hpoll h4
          | done o =>
            cases o with
            | none => exact ⟨⟨false, none, ""⟩, _, rfl, resultInvariant_fail _⟩
            | some task =>
              dsimp only
              obtain ⟨r, dt, ex, hap, hinv⟩ := afterPoll_total env task
              rw [hap]
              exact ⟨r, _, rfl, hinv⟩

theorem run_inv_aux (env : Env) (source_url hoarder_id token : String)
    (r : PaperlessArchiveResult) (tr : Trace)
    (h : processDocumentWithPaperless env source_url hoarder_id token
      = (RunOutcome.result r, tr)) :
    resultInvariant r := by
  unfold processDocumentWithPaperless at h
  by_cases hu : source_url = ""
  · rw [if_pos hu] at h
    simp only [Prod.mk.injEq, RunOutcome.result.injEq] at h
    obtain ⟨hr, -⟩ := h
    subst hr
    exact resultInvariant_fail _
  · rw [if_neg hu] at h
    cases hes : env.existsSource with
    | exn =>
      rw [hes] at h
      simp at h
    | ok b =>
      rw [hes] at h
      dsimp only at h
      rw [show (b && !IGNORE_EXISTING_FILE) = false by simp [IGNORE_EXISTING_FILE]] at h
      simp only [Bool.false_eq_true, if_false] at h
      rcases hup : processAndIngestPDF env with ⟨v, ut⟩
      rw [hup] at h
      cases v with
      | error u =>
        simp at h
      | ok o =>
        cases o with
        | none =>
          simp only [Prod.mk.injEq, RunOutcome.result.injEq] at h
          obtain ⟨hr, -⟩ := h
          subst hr
          exact resultInvariant_fail _
        | some s =>
          dsimp only at h
          by_cases hs : s = ""
          · rw [if_pos hs] at h
            simp only [Prod.mk.injEq, RunOutcome.result.injEq] at h
            obtain ⟨hr, -⟩ := h
            subst hr
            exact resultInvariant_fail _
          · rw [if_neg hs] at h
            cases hpoll : pollPaperlessTaskStatus env.polls with
            | diverge =>
              rw [hpoll] at h
              simp at h
            | done o2 =>
              rw [hpoll] at h
              cases o2 with
              | none =>
                simp only [Prod.mk.injEq, RunOutcome.result.injEq] at h
                obtain ⟨hr, -⟩ := h
                subst hr
                exact resultInvariant_fail _
              | some task =>
                dsimp only at h
                obtain ⟨r2, dt2, ex2, hap, hinv⟩ := afterPoll_total env task
                rw [hap] at h
                simp only [Prod.mk.injEq, RunOutcome.result.injEq] at h
                obtain ⟨hr, -⟩ := h
                subst hr
                exact hinv

/-! ### Claim theorems -/

/-- Claim C1 (corrected): the workflow never propagates an exception and
always returns a complete result — provided the synchronous directory
calls (`existsSync` on the source path, `existsSync`/`mkdirSync` for the
originals staging directory) do not throw and the poll loop reaches a
decision; every failure is encoded as `is_new_entry = false` with empty
text.  (As literally stated over all collaborator behaviours the claim is
false: see the counterexample, where a throwing `mkdirSync` propagates.) -/
theorem run_total_unless_sync_fs_throws (env : Env) (source_url hoarder_id token : String)
    (h1 : env.existsSource ≠ JSOutcome.exn)
    (h2 : env.origExists ≠ JSOutcome.exn)
    (h3 : env.origMkdir ≠ JSOutcome.exn)
    (h4 : pollPaperlessTaskStatus env.polls ≠ PollOutcome.diverge) :
    ∃ r tr, processDocumentWithPaperless env source_url hoarder_id token
        = (RunOutcome.result r, tr)
      ∧ (r.new_entry = false → r.content = "") := by
  obtain ⟨r, tr, hrun, hinv⟩ := run_total_aux env source_url hoarder_id token h1 h2 h3 h4
  exact ⟨r, tr, hrun, hinv.2⟩

/-- Claim C1, counterexample to the literal statement: when
`mkdirSync("originals")` throws (a file-system collaborator call), the
workflow propagates the exception to its caller instead of returning an
IngestionResult. -/
theorem run_propagates_mkdir_exception :
    (processDocumentWithPaperless mkdirThrowsEnv urlA hoarderA tokenA).1
      = RunOutcome.thrown := rfl

/-- Claim C1, witness for the amended theorem at a concrete environment. -/
theorem run_total_unless_sync_fs_throws_witness :
    ∃ r tr, processDocumentWithPaperless okEnvBase urlA hoarderA tokenA
        = (RunOutcome.result r, tr)
      ∧ (r.new_entry = false → r.content = "") :=
  run_total_unless_sync_fs_throws okEnvBase urlA hoarderA tokenA
    (by decide) (by decide) (by decide) (by decide)

/-- Claim C2 (confirmed): every result the workflow returns satisfies the
invariant — a new entry has non-empty extracted text and a non-null
document id, a non-new entry has empty text. -/
theorem run_result_invariant (env : Env) (source_url hoarder_id token : String)
    (r : PaperlessArchiveResult) (tr : Trace)
    (h : processDocumentWithPaperless env source_url hoarder_id token
      = (RunOutcome.result r, tr)) :
    (r.new_entry = true → r.content ≠ "" ∧ r.uuid ≠ none)
    ∧ (r.new_entry = false → r.content = "") :=
  run_inv_aux env source_url hoarder_id token r tr h

/-- Claim C2, witness at a concrete fully-successful environment. -/
theorem run_result_invariant_witness :
    ((⟨true, some 5, sampleText⟩ : PaperlessArchiveResult).new_entry = true →
      (⟨true, some 5, sampleText⟩ : PaperlessArchiveResult).content ≠ ""
      ∧ (⟨true, some 5, sampleText⟩ : PaperlessArchiveResult).uuid ≠ none)
    ∧ ((⟨true, some 5, sampleText⟩ : PaperlessArchiveResult).new_entry = false →
      (⟨true, some 5, sampleText⟩ : PaperlessArchiveResult).content = "") :=
  run_result_invariant okEnvBase urlA hoarderA tokenA ⟨true, some 5, sampleText⟩
    ⟨false, true, true, true, true, 1, false, some 5, some 5, true⟩ rfl

/-- Claim C3 (confirmed): a terminal `FAILURE` task with a duplicate
message from which a (truthy) identifier `n` is extractable makes the
workflow, under the enabled reprocess policy, adopt `n` as document id and
continue to the archival download and extraction of document `n`; when
those succeed with non-empty text it returns
`{is_new_entry:true, document_id:n, extracted_text:txt}`. -/
theorem run_reprocesses_extractable_duplicate (env : Env)
    (source_url hoarder_id token : String) (task : TaskResponse) (res : String)
    (n : Int) (txt : String)
    (hurl : source_url ≠ "")
    (hes : ∃ b, env.existsSource = JSOutcome.ok b)
    (hup : ∃ s ut, processAndIngestPDF env = (Except.ok (some s), ut) ∧ s ≠ "")
    (hpoll : pollPaperlessTaskStatus env.polls = PollOutcome.done (some task))
    (hst : task.status = "FAILURE")
    (hres : task.result = some res)
    (hdup : listContainsSub duplicate_string.data res.data = true)
    (hid : extractDuplicateId res = some n) (hn : n ≠ 0)
    (hdl : downloadOk env)
    (htxt : env.pdfText = JSOutcome.ok txt) (hne : txt ≠ "") :
    ∃ tr : Trace, processDocumentWithPaperless env source_url hoarder_id token
        = (RunOutcome.result ⟨true, some n, txt⟩, tr)
      ∧ tr.fetchDownload = some n ∧ tr.extracted = true := by
  obtain ⟨s, ut, hups, hsne⟩ := hup
  obtain ⟨mk, hap⟩ :=
    afterPoll_duplicate_download env task res n txt hst hres hdup hid hn hdl htxt hne
  have hrun := run_after_poll env source_url hoarder_id token task s ut hurl hes hups hsne hpoll
  rw [hap] at hrun
  exact ⟨_, hrun, rfl, rfl⟩

/-- Claim C3, witness: duplicate message naming document 917, download and
extraction succeeding. -/
theorem run_reprocesses_extractable_duplicate_witness :
    ∃ tr : Trace, processDocumentWithPaperless dupEnv urlA hoarderA tokenA
        = (RunOutcome.result ⟨true, some 917, sampleText⟩, tr)
      ∧ tr.fetchDownload = some 917 ∧ tr.extracted = true :=
  run_reprocesses_extractable_duplicate dupEnv urlA hoarderA tokenA failTask917 msg917
    917 sampleText (by decide) ⟨false, rfl⟩
    ⟨sampleUuid, ⟨false, true, true, true, true⟩, rfl, by decide⟩
    rfl rfl rfl rfl rfl (by decide)
    ⟨⟨true, rfl⟩, fun hc => absurd hc (by decide), rfl, rfl, rfl⟩
    rfl (by decide)

/-- Claim C4 (corrected): when the upload POST throws, or its response body
fails to parse as JSON, or parses to null or the empty string, the workflow
returns `{is_new_entry:false, document_id:null, extracted_text:""}` without
issuing any poll request.  (As literally stated the claim is false: the
source never inspects the upload response's HTTP status, so a non-2xx
response whose body parses to a non-empty JSON string is treated as a task
identifier and the workflow proceeds to polling — see the counterexample.) -/
theorem upload_failure_returns_null_without_polling (env : Env)
    (source_url hoarder_id token : String)
    (hurl : source_url ≠ "")
    (hes : ∃ b, env.existsSource = JSOutcome.ok b)
    (hpre : preUploadOk env)
    (hfail : env.uploadFetch = JSOutcome.exn ∨ env.uploadJson = JSOutcome.exn
      ∨ env.uploadJson = JSOutcome.ok none
      ∨ env.uploadJson = JSOutcome.ok (some "")) :
    ∃ tr : Trace, processDocumentWithPaperless env source_url hoarder_id token
        = (RunOutcome.result ⟨false, none, ""⟩, tr) ∧ tr.pollFetches = 0 := by
  obtain ⟨b, hb⟩ := hes
  obtain ⟨mk, hup⟩ := processAndIngestPDF_reaches_upload env hpre
  unfold processDocumentWithPaperless
  rw [if_neg hurl, hb]
  dsimp only
  rw [show (b && !IGNORE_EXISTING_FILE) = false by simp [IGNORE_EXISTING_FILE]]
  simp only [Bool.false_eq_true, if_false]
  rw [hup]
  rcases uploadDocument_fails env hfail with hnone | hempty
  · rw [hnone]
    exact ⟨_, rfl, rfl⟩
  · rw [hempty]
    dsimp only
    rw [if_pos rfl]
    exact ⟨_, rfl, rfl⟩

/-- Claim C4, counterexample to the literal statement: the upload endpoint
answers 502 (non-2xx, `ok := false`) with the non-empty JSON string body
`serverErrorBody`, yet the workflow issues a poll request. -/
theorem upload_non2xx_still_polls :
    (processDocumentWithPaperless upload502Env urlA hoarderA tokenA).2.pollFetches
      = 1 := rfl

/-- Claim C4, witness for the amended theorem: the upload POST throws. -/
theorem upload_failure_returns_null_without_polling_witness :
    ∃ tr : Trace, processDocumentWithPaperless uploadThrowsEnv urlA hoarderA tokenA
        = (RunOutcome.result ⟨false, none, ""⟩, tr) ∧ tr.pollFetches = 0 :=
  upload_failure_returns_null_without_polling uploadThrowsEnv urlA hoarderA tokenA
    (by decide) ⟨false, rfl⟩
    ⟨⟨true, rfl⟩, fun hc => absurd hc (by decide), rfl, rfl, rfl⟩
    (Or.inl rfl)

/-- Claim C7 (confirmed): a terminal `FAILURE` task whose result message
does not signal a duplicate makes the workflow return
`{is_new_entry:false, document_id:<task's id>, extracted_text:""}` without
downloading or extracting anything. -/
theorem run_ignores_nonduplicate_failure (env : Env)
    (source_url hoarder_id token : String) (task : TaskResponse)
    (hurl : source_url ≠ "")
    (hes : ∃ b, env.existsSource = JSOutcome.ok b)
    (hup : ∃ s ut, processAndIngestPDF env = (Except.ok (some s), ut) ∧ s ≠ "")
    (hpoll : pollPaperlessTaskStatus env.polls = PollOutcome.done (some task))
    (hst : task.status = "FAILURE")
    (hnd : ∀ m, task.result = some m →
      listContainsSub duplicate_string.data m.data = false) :
    ∃ tr : Trace, processDocumentWithPaperless env source_url hoarder_id token
        = (RunOutcome.result ⟨false, some task.id, ""⟩, tr)
      ∧ tr.fetchDownload = none ∧ tr.writeArchive = none ∧ tr.extracted = false := by
  obtain ⟨s, ut, hups, hsne⟩ := hup
  have hap := afterPoll_nondup env task hst hnd
  have hrun := run_after_poll env source_url hoarder_id token task s ut hurl hes hups hsne hpoll
  rw [hap] at hrun
  exact ⟨_, hrun, rfl, rfl, rfl⟩

/-- Claim C7, witness: terminal FAILURE with a non-duplicate message. -/
theorem run_ignores_nonduplicate_failure_witness :
    ∃ tr : Trace, processDocumentWithPaperless otherEnv urlA hoarderA tokenA
        = (RunOutcome.result ⟨false, some failTaskOther.id, ""⟩, tr)
      ∧ tr.fetchDownload = none ∧ tr.writeArchive = none ∧ tr.extracted = false :=
  run_ignores_nonduplicate_failure otherEnv urlA hoarderA tokenA failTaskOther
    (by decide) ⟨false, rfl⟩
    ⟨sampleUuid, ⟨false, true, true, true, true⟩, rfl, by decide⟩
    rfl rfl
    (by
      intro m hm
      have h2 : some msgOther = some m := hm
      injection h2 with h3
      subst h3
      decide)

/-- Claim C9 (confirmed): an empty `source_url` makes the workflow return
`{is_new_entry:false, document_id:null, extracted_text:""}` immediately,
with no network request issued and no directory or file written. -/
theorem run_empty_source_url_noop (env : Env) (hoarder_id token : String) :
    processDocumentWithPaperless env "" hoarder_id token
      = (RunOutcome.result ⟨false, none, ""⟩, emptyTrace) := rfl

/-- Claim C10 (confirmed): a terminal `FAILURE` task with a duplicate
message whose extracted identifier is 0 is handled exactly like the
no-extractable-identifier case — 0 is not adopted (JavaScript truthiness of
`if (duplicate_id)`), and the workflow returns
`{is_new_entry:false, document_id:<task record's id>, extracted_text:""}`
without downloading or extracting. -/
theorem duplicate_id_zero_not_adopted (env : Env)
    (source_url hoarder_id token : String) (task : TaskResponse) (res : String)
    (hurl : source_url ≠ "")
    (hes : ∃ b, env.existsSource = JSOutcome.ok b)
    (hup : ∃ s ut, processAndIngestPDF env = (Except.ok (some s), ut) ∧ s ≠ "")
    (hpoll : pollPaperlessTaskStatus env.polls = PollOutcome.done (some task))
    (hst : task.status = "FAILURE")
    (hres : task.result = some res)
    (hdup : listContainsSub duplicate_string.data res.data = true)
    (hid : extractDuplicateId res = some 0) :
    ∃ tr : Trace, processDocumentWithPaperless env source_url hoarder_id token
        = (RunOutcome.result ⟨false, some task.id, ""⟩, tr)
      ∧ tr.fetchDownload = none ∧ tr.writeArchive = none ∧ tr.extracted = false := by
  obtain ⟨s, ut, hups, hsne⟩ := hup
  have hap := afterPoll_zero env task res hst hres hdup hid
  have hrun := run_after_poll env source_url hoarder_id token task s ut hurl hes hups hsne hpoll
  rw [hap] at hrun
  exact ⟨_, hrun, rfl, rfl, rfl⟩

/-- Claim C10, witness: duplicate message with identifier 0. -/
theorem duplicate_id_zero_not_adopted_witness :
    ∃ tr : Trace, processDocumentWithPaperless zeroEnv urlA hoarderA tokenA
        = (RunOutcome.result ⟨false, some failTaskZero.id, ""⟩, tr)
      ∧ tr.fetchDownload = none ∧ tr.writeArchive = none ∧ tr.extracted = false :=
  duplicate_id_zero_not_adopted zeroEnv urlA hoarderA tokenA failTaskZero msgZero
    (by decide) ⟨false, rfl⟩
    ⟨sampleUuid, ⟨false, true, true, true, true⟩, rfl, by decide⟩
    rfl rfl rfl rfl rfl

end PaperlessHelper
